import Mathlib

/-!
# qmccompiler: the `Compiler` orchestration layer

A shallow embedding of `src/qmccompiler/compiler.cpp`.

* The private object `CompilerPrivate` (error list and held compilation
  pointer) becomes a record; a pointer is an `Option`, `NULL` is `none`.
* A member function that mutates the object is a function on `Compiler`
  returning the new object; a `const` member function is a pure function
  (`errors` also returns the object, so that its frame can be stated).
* Dereferencing a null pointer, indexing the string table out of range and a
  failing `Q_ASSERT` in a build with assertions do not produce a result: the
  embedded function returns `none` there.
* Everything the file calls but does not define (the host toolkit, and the
  virtual stages `compileData` / `createExportStructures` implemented by
  subclasses) is a field of `Host`.
* `Compiler.calls` is a ghost trace: every embedded function that the
  properties speak about records its entry, and every host call is recorded
  at its call site, in program order.  Host functions never see the trace.
* `qDebug()` output is not modelled.
-/

namespace Qmlc

/-! ## Host data -/

/-- The host type `QUrl`, built in this file only from a `QString`. -/
structure QUrl where
  text : String
deriving DecidableEq, Repr

/-- The host type `QByteArray`, a sequence of bytes. -/
abbrev QByteArray := List Nat

/-- The host type `QDataStream`: the bytes written so far. -/
abbrev QDataStream := List Nat

/-- The host type `QQmlError`; a default-constructed error has a null url and an empty
description, the only two properties this file sets. -/
structure QQmlError where
  url : QUrl := ⟨""⟩
  description : String := ""
deriving DecidableEq, Repr

/-- What the code observes of a `QQmlFile` after `load`. -/
structure QQmlFile where
  isReady : Bool
  isError : Bool
  error : String
  data : QByteArray
deriving DecidableEq, Repr

/-- The pointer `QQmlEngine *`, a handle owned by the host. -/
structure QQmlEngine where
  handle : Nat
deriving DecidableEq, Repr

/-- The host type `QQmlImports`, private host state abstracted to a code. -/
structure QQmlImports where
  state : Nat
deriving DecidableEq, Repr

/-- The host type `QQmlImportDatabase`, private host state abstracted to a code. -/
structure QQmlImportDatabase where
  state : Nat
deriving DecidableEq, Repr

/-- The host type `QV4::CompiledData::Location`. -/
structure Location where
  line : Nat
  column : Nat
deriving DecidableEq, Repr

/-- Enumerator `ImportLibrary = 0x1` of `QV4::CompiledData::Import::ImportType`. -/
def ImportType.ImportLibrary : Nat := 1

/-- Enumerator `ImportFile = 0x2` of `QV4::CompiledData::Import::ImportType`. -/
def ImportType.ImportFile : Nat := 2

/-- Enumerator `ImportScript = 0x3` of `QV4::CompiledData::Import::ImportType`. -/
def ImportType.ImportScript : Nat := 3

/-- The host type `QV4::CompiledData::Import`; `type` and the two indices are
`quint32` fields, so `type` can hold a value that is none of the three
enumerators. -/
structure Import where
  type : Nat
  uriIndex : Nat
  qualifierIndex : Nat
  majorVersion : Int
  minorVersion : Int
  location : Location
deriving DecidableEq, Repr

/-- The type `QmlCompilation::ScriptReference`, the two fields `addImport` fills. -/
structure ScriptReference where
  location : Location
  qualifier : String
deriving DecidableEq, Repr

/-- The string table of `document->jsGenerator`. -/
structure StringTable where
  strings : List String
deriving DecidableEq, Repr

/-- The host type `QV4::Compiler::JSUnitGenerator`, reduced to its string table. -/
structure JSUnitGenerator where
  stringTable : StringTable
deriving DecidableEq, Repr

/-- The host type `QmlIR::Document`, reduced to the member this file reads. -/
structure Document where
  jsGenerator : JSUnitGenerator
deriving DecidableEq, Repr

/-- The class `QmlCompilation`: the members `compiler.cpp` touches; `rest` stands for
every other member. -/
structure QmlCompilation where
  urlString : String
  url : QUrl
  engine : QQmlEngine
  code : String
  importCache : Option QQmlImports
  importDatabase : Option QQmlImportDatabase
  document : Option Document
  scripts : List ScriptReference
  rest : Nat
deriving DecidableEq, Repr

/-- The class `CompilerPrivate` (lines 26-36). -/
structure CompilerPrivate where
  errors : List QQmlError
  compilation : Option QmlCompilation
deriving DecidableEq, Repr

/-- Entries of the ghost call trace. -/
inductive Call where
  | newQmlCompilation
  | loadData
  | fileLoad
  | compileData
  | createExportStructures
  | exportData
  | checkData
  | exportQmc
  | isAnyModule
  | addLibraryImport
deriving DecidableEq, Repr

/-- A `Compiler` object: its private part and the ghost call trace. -/
structure Compiler where
  d : CompilerPrivate
  calls : List Call
deriving DecidableEq, Repr

/-- Result of `QQmlImports::addLibraryImport`: the returned flag, the
updated import cache and database, and the caller's error list after the
call. -/
structure LibraryImportResult where
  ok : Bool
  importCache : QQmlImports
  importDatabase : Option QQmlImportDatabase
  errors : List QQmlError

/-- Everything `compiler.cpp` calls without defining.  `assertionsEnabled`
says that `Q_ASSERT` is active (the build does not define `QT_NO_DEBUG`). -/
structure Host where
  assertionsEnabled : Bool
  qgetenv : String → QByteArray
  isValid : QUrl → Bool
  isEmpty : QUrl → Bool
  newQmlCompilation : String → QUrl → QmlCompilation
  newQQmlImports : QQmlEngine → QQmlImports
  newQQmlImportDatabase : QQmlEngine → QQmlImportDatabase
  load : QQmlEngine → QUrl → QQmlFile
  fromUtf8 : QByteArray → String
  compileData : CompilerPrivate → Bool × CompilerPrivate
  createExportStructures : CompilerPrivate → Bool × CompilerPrivate
  checkData : QmlCompilation → Bool
  exportQmc : QmlCompilation → QDataStream → Bool × QmlCompilation × QDataStream
  isAnyModule : String → Bool
  addLibraryImport : QQmlImports → Option QQmlImportDatabase → String → String →
    Int → Int → String → String → Bool → List QQmlError → LibraryImportResult

/-! ## The member functions -/

/-- Append an entry to the ghost trace. -/
def Compiler.record (c : Call) (s : Compiler) : Compiler :=
  { s with calls := s.calls ++ [c] }

/-- Replace the held compilation pointer. -/
def Compiler.setCompilation (c : Option QmlCompilation) (s : Compiler) : Compiler :=
  { s with d := { s.d with compilation := c } }

/-- The macro `Q_ASSERT(cond)`: aborts only in a build with assertions. -/
def Q_ASSERT (h : Host) (cond : Bool) : Option Unit :=
  if h.assertionsEnabled && !cond then none else some ()

/-- Conversion of a `quint32` to the `int` parameter of `stringAt`. -/
def toInt (n : Nat) : Int :=
  if n % 2 ^ 32 < 2 ^ 31 then ((n % 2 ^ 32 : Nat) : Int) else ((n % 2 ^ 32 : Nat) : Int) - 2 ^ 32

/-- The host function `StringTableGenerator::stringForIndex`: `strings.at(index)`. -/
def StringTable.stringForIndex (t : StringTable) (index : Int) : Option String :=
  if index < 0 then none else t.strings[index.toNat]?

/-- Member `Compiler::takeCompilation` (lines 57-63). -/
def takeCompilation (s : Compiler) : Option QmlCompilation × Compiler :=
  let c := s.d.compilation
  (c, s.setCompilation none)

/-- Member `Compiler::clearError` (lines 86-90). -/
def clearError (s : Compiler) : Compiler :=
  { s with d := { s.d with errors := [] } }

/-- Member `Compiler::errors` (lines 92-96): the returned list, and the object
after the call. -/
def errors (s : Compiler) : List QQmlError × Compiler :=
  (s.d.errors, s)

/-- Member `Compiler::appendError` (lines 98-102). -/
def appendError (error : QQmlError) (s : Compiler) : Compiler :=
  { s with d := { s.d with errors := s.d.errors ++ [error] } }

/-- Member `Compiler::appendErrors` (lines 104-108). -/
def appendErrors (es : List QQmlError) (s : Compiler) : Compiler :=
  { s with d := { s.d with errors := s.d.errors ++ es } }

/-- Member `Compiler::compilation` (lines 110-120). -/
def compilation (s : Compiler) : Option QmlCompilation :=
  s.d.compilation

/-- Member `Compiler::loadData` (lines 65-84). -/
def loadData (h : Host) (s : Compiler) : Option (Bool × Compiler) :=
  let s := s.record Call.loadData
  match s.d.compilation with
  | none => none
  | some c =>
    let url := c.url
    if !h.isValid url || h.isEmpty url then
      some (false, s)
    else
      let f := h.load c.engine url
      let s := s.record Call.fileLoad
      if !f.isReady then
        if f.isError then
          some (false, appendError { url := url, description := f.error } s)
        else
          some (false, s)
      else
        some (true, s.setCompilation (some { c with code := h.fromUtf8 f.data }))

/-- The virtual `Compiler::compileData`, implemented by subclasses. -/
def compileData (h : Host) (s : Compiler) : Bool × Compiler :=
  let s := s.record Call.compileData
  let r := h.compileData s.d
  (r.1, { s with d := r.2 })

/-- The virtual `Compiler::createExportStructures`, implemented by subclasses. -/
def createExportStructures (h : Host) (s : Compiler) : Bool × Compiler :=
  let s := s.record Call.createExportStructures
  let r := h.createExportStructures s.d
  (r.1, { s with d := r.2 })

/-- Member `Compiler::compile(const QString &)` (lines 122-153). -/
def compile (h : Host) (url : String) (s : Compiler) : Option (Bool × Compiler) :=
  let s := clearError s
  if !(h.qgetenv "QV4_FORCE_INTERPRETER").isEmpty then
    some (false, appendError { description := "Compiler is forced to use interpreter" } s)
  else
    match Q_ASSERT h s.d.compilation.isNone with
    | none => none
    | some _ =>
      let c := h.newQmlCompilation url (QUrl.mk url)
      let s := s.record Call.newQmlCompilation
      let c := { c with importCache := some (h.newQQmlImports c.engine) }
      let c := { c with importDatabase := some (h.newQQmlImportDatabase c.engine) }
      let c := { c with url := QUrl.mk url }
      let s := s.setCompilation (some c)
      match loadData h s with
      | none => none
      | some (false, s) => some (false, (takeCompilation s).2)
      | some (true, s) =>
        match compileData h s with
        | (false, s) => some (false, (takeCompilation s).2)
        | (true, s) => some (true, s)

/-- Member `Compiler::exportData` (lines 169-188). -/
def exportData (h : Host) (output : QDataStream) (s : Compiler) :
    Option (Bool × QDataStream × Compiler) :=
  let s := s.record Call.exportData
  match s.d.compilation with
  | none => none
  | some c =>
    let s := s.record Call.checkData
    if !h.checkData c then
      some (false, output,
        appendError { description := "Compiled data not valid. Internal error." } s)
    else
      let s := s.record Call.exportQmc
      let r := h.exportQmc c output
      let ret := r.1
      let s := s.setCompilation (some r.2.1)
      if !ret then
        some (ret, r.2.2, appendError { description := "Error saving data" } s)
      else
        some (ret, r.2.2, s)

/-- Member `Compiler::compile(const QString &, QDataStream &)` (lines 155-167). -/
def compileOutput (h : Host) (url : String) (output : QDataStream) (s : Compiler) :
    Option (Bool × QDataStream × Compiler) :=
  match compile h url s with
  | none => none
  | some (false, s) => some (false, output, (takeCompilation s).2)
  | some (true, s) =>
    match createExportStructures h s with
    | (false, s) => some (false, output, (takeCompilation s).2)
    | (true, s) =>
      match exportData h output s with
      | none => none
      | some (ret, output, s) => some (ret, output, (takeCompilation s).2)

/-- Member `Compiler::stringAt` (lines 190-194), a `const` member. -/
def stringAt (s : Compiler) (index : Int) : Option String :=
  match s.d.compilation with
  | none => none
  | some c =>
    match c.document with
    | none => none
    | some doc => doc.jsGenerator.stringTable.stringForIndex index

/-- Member `Compiler::addImport` (lines 196-225); `errs` is the list behind the
caller's `errors` pointer, returned after the call. -/
def addImport (h : Host) (imp : Import) (errs : List QQmlError) (s : Compiler) :
    Option (Bool × List QQmlError × Compiler) :=
  match stringAt s (toInt imp.uriIndex) with
  | none => none
  | some importUri =>
    match stringAt s (toInt imp.qualifierIndex) with
    | none => none
    | some importQualifier =>
      if imp.type = ImportType.ImportScript then
        match s.d.compilation with
        | none => none
        | some c =>
          let scriptRef : ScriptReference :=
            { location := imp.location, qualifier := importQualifier }
          some (true, errs, s.setCompilation (some { c with scripts := c.scripts ++ [scriptRef] }))
      else if imp.type = ImportType.ImportLibrary then
        let s := s.record Call.isAnyModule
        if h.isAnyModule importUri then
          match s.d.compilation with
          | none => none
          | some c =>
            match c.importCache with
            | none => none
            | some cache =>
              let s := s.record Call.addLibraryImport
              let r := h.addLibraryImport cache c.importDatabase importUri importQualifier
                imp.majorVersion imp.minorVersion "" "" false errs
              let s := s.setCompilation
                (some { c with importCache := some r.importCache,
                               importDatabase := r.importDatabase })
              if !r.ok then some (false, r.errors, s) else some (true, r.errors, s)
        else
          some (true, errs, s)
      else
        match Q_ASSERT h (decide (imp.type = ImportType.ImportFile)) with
        | none => none
        | some _ => some (false, errs, s)

/-- The object on which `compile` calls `loadData` (after lines 125 and
136-140): errors cleared, a new compilation for `url` in the slot. -/
def compileLoadState (h : Host) (url : String) (s : Compiler) : Compiler :=
  (((clearError s).record Call.newQmlCompilation).setCompilation
    (some { h.newQmlCompilation url (QUrl.mk url) with
      importCache := some (h.newQQmlImports (h.newQmlCompilation url (QUrl.mk url)).engine),
      importDatabase :=
        some (h.newQQmlImportDatabase (h.newQmlCompilation url (QUrl.mk url)).engine),
      url := QUrl.mk url }))

/-- Entries that `compile` can add to the trace. -/
def compileCalls : List Call :=
  [Call.newQmlCompilation, Call.loadData, Call.fileLoad, Call.compileData]

/-! ## Sample host and objects -/

/-- A compilation as a constructor could leave it. -/
def sampleCompilation : QmlCompilation :=
  { urlString := "a.qml", url := QUrl.mk "a.qml", engine := ⟨0⟩, code := "",
    importCache := some ⟨0⟩, importDatabase := some ⟨0⟩,
    document := some ⟨⟨⟨["QtQuick", "Q", "util.js", "U"]⟩⟩⟩, scripts := [], rest := 0 }

/-- A host in which every url with a non-empty text exists and holds the
byte `65`, both stages succeed, and the exporter writes one byte. -/
def sampleHost : Host :=
  { assertionsEnabled := true
    qgetenv := fun _ => []
    isValid := fun u => !u.text.data.isEmpty
    isEmpty := fun u => u.text.data.isEmpty
    newQmlCompilation := fun s u => { sampleCompilation with urlString := s, url := u }
    newQQmlImports := fun _ => ⟨0⟩
    newQQmlImportDatabase := fun _ => ⟨0⟩
    load := fun _ _ => { isReady := true, isError := false, error := "", data := [65] }
    fromUtf8 := fun b => String.mk (b.map Char.ofNat)
    compileData := fun d => (true, d)
    createExportStructures := fun d => (true, d)
    checkData := fun _ => true
    exportQmc := fun c o => (true, c, o ++ [1])
    isAnyModule := fun uri => uri.data.length == 7
    addLibraryImport := fun cache db _ _ major _ _ _ _ errs =>
      { ok := decide (0 < major), importCache := ⟨cache.state + 1⟩, importDatabase := db,
        errors := if 0 < major then errs else errs ++ [{ description := "module not installed" }] } }

/-- A compiler holding the sample compilation and one earlier error. -/
def sampleCompiler : Compiler :=
  { d := { errors := [{ description := "old" }], compilation := some sampleCompilation },
    calls := [] }

/-- A freshly constructed compiler (lines 38-51). -/
def freshCompiler : Compiler :=
  { d := { errors := [], compilation := none }, calls := [] }

/-! ## The error list -/

/-- C2: the error list aggregates errors in call order.  After `appendError e`
the list is the old list followed by `e`; after `appendErrors es` it is the old
list followed by `es`, so two `appendErrors` calls give the same object as one
call with the concatenation; after `clearError` it is empty; `errors` returns
the held list and leaves the object as it was; none of the four operations
changes the held compilation. -/
theorem error_list_aggregates (s : Compiler) (e : QQmlError) (es a b : List QQmlError) :
    (errors (appendError e s)).1 = (errors s).1 ++ [e] ∧
    (errors (appendErrors es s)).1 = (errors s).1 ++ es ∧
    appendErrors b (appendErrors a s) = appendErrors (a ++ b) s ∧
    (errors (clearError s)).1 = [] ∧
    errors s = (s.d.errors, s) ∧
    compilation (appendError e s) = compilation s ∧
    compilation (appendErrors es s) = compilation s ∧
    compilation (clearError s) = compilation s ∧
    compilation (errors s).2 = compilation s := by
  refine ⟨rfl, rfl, ?_, rfl, rfl, rfl, rfl, rfl, rfl⟩
  simp [appendErrors, List.append_assoc]

/-! ## Loading -/

/-- C3: `loadData` forwards the file loader's error.  For a held compilation
`c` whose url is valid and not empty: when the loaded file is not ready and is
in error, `loadData` returns false, the error list is the old one followed by
one error carrying `c.url` and the loader's message, and the compilation
(hence its code) is unchanged; when the file is ready, `loadData` returns
true, the code is the UTF-8 decoding of the file's data, every other member of
the compilation is unchanged, and the error list is unchanged. -/
theorem loadData_forwards_error (h : Host) (s : Compiler) (c : QmlCompilation)
    (hc : s.d.compilation = some c) (hvalid : h.isValid c.url = true)
    (hne : h.isEmpty c.url = false) :
    ((h.load c.engine c.url).isReady = false → (h.load c.engine c.url).isError = true →
      ∃ s', loadData h s = some (false, s') ∧
        (errors s').1 = (errors s).1 ++
          [{ url := c.url, description := (h.load c.engine c.url).error }] ∧
        compilation s' = some c) ∧
    ((h.load c.engine c.url).isReady = true →
      ∃ s', loadData h s = some (true, s') ∧
        compilation s' = some { c with code := h.fromUtf8 (h.load c.engine c.url).data } ∧
        (errors s').1 = (errors s).1) := by
  constructor
  · intro hr he
    simp [loadData, Compiler.record, hc, hvalid, hne, hr, he, appendError, errors, compilation]
  · intro hr
    simp [loadData, Compiler.record, hc, hvalid, hne, hr, errors, compilation,
      Compiler.setCompilation]

/-- Witness for C3: the sample host, once with a loader that reports
"No such file" and once with the ready file. -/
theorem loadData_forwards_error_witness :
    (∃ s', loadData { sampleHost with
          load := fun _ _ => { isReady := false, isError := true, error := "No such file", data := [] } }
        sampleCompiler = some (false, s') ∧
      (errors s').1 = [{ description := "old" },
        { url := QUrl.mk "a.qml", description := "No such file" }] ∧
      compilation s' = some sampleCompilation) ∧
    (∃ s', loadData sampleHost sampleCompiler = some (true, s') ∧
      compilation s' = some { sampleCompilation with code := "A" } ∧
      (errors s').1 = [{ description := "old" }]) :=
  ⟨(loadData_forwards_error { sampleHost with
      load := fun _ _ => { isReady := false, isError := true, error := "No such file", data := [] } }
      sampleCompiler sampleCompilation rfl rfl rfl).1 rfl rfl,
   (loadData_forwards_error sampleHost sampleCompiler sampleCompilation rfl rfl rfl).2 rfl⟩

/-- C7: under a forced interpreter `compile(url)` discards the earlier errors
and refuses to run.  When `QV4_FORCE_INTERPRETER` is non-empty, for every url
and every object, `compile` returns false, the error list is exactly the one
error "Compiler is forced to use interpreter", the held compilation slot is
unchanged, and the call trace is unchanged: no compilation is constructed and
neither `loadData` nor `compileData` runs. -/
theorem compile_forced_interpreter (h : Host) (url : String) (s : Compiler)
    (henv : (h.qgetenv "QV4_FORCE_INTERPRETER").isEmpty = false) :
    ∃ s', compile h url s = some (false, s') ∧
      (errors s').1 = [{ description := "Compiler is forced to use interpreter" }] ∧
      compilation s' = compilation s ∧
      s'.calls = s.calls := by
  simp [compile, henv, clearError, appendError, errors, compilation]

/-- Witness for C7: the sample host with the variable set to "1". -/
theorem compile_forced_interpreter_witness :
    ∃ s', compile { sampleHost with qgetenv := fun _ => [49] } "a.qml" sampleCompiler
        = some (false, s') ∧
      (errors s').1 = [{ description := "Compiler is forced to use interpreter" }] ∧
      compilation s' = compilation sampleCompiler ∧
      s'.calls = sampleCompiler.calls :=
  compile_forced_interpreter { sampleHost with qgetenv := fun _ => [49] } "a.qml"
    sampleCompiler rfl

/-- C9: an invalid or empty url fails without any error being recorded.  For a
held compilation whose url is invalid or empty, `loadData` returns false, the
private part (error list, compilation and its code) is unchanged, and the only
trace entry is the entry of `loadData` itself: no file is loaded.  And when
`QV4_FORCE_INTERPRETER` is empty or unset, `compile(url)` for such a url,
started where its assertion holds, returns false with an empty error list and
no held compilation, and the trace gains only the construction of the
compilation and the entry of `loadData`: `compileData` is not invoked. -/
theorem invalid_url_fails_silently (h : Host) (s : Compiler) (c : QmlCompilation)
    (url : String) (s₀ : Compiler) :
    (s.d.compilation = some c → (h.isValid c.url = false ∨ h.isEmpty c.url = true) →
      ∃ s', loadData h s = some (false, s') ∧ s'.d = s.d ∧
        s'.calls = s.calls ++ [Call.loadData]) ∧
    ((h.qgetenv "QV4_FORCE_INTERPRETER").isEmpty = true →
      (h.isValid (QUrl.mk url) = false ∨ h.isEmpty (QUrl.mk url) = true) →
      (h.assertionsEnabled = true → s₀.d.compilation = none) →
      ∃ s', compile h url s₀ = some (false, s') ∧ (errors s').1 = [] ∧
        compilation s' = none ∧
        s'.calls = s₀.calls ++ [Call.newQmlCompilation, Call.loadData]) := by
  constructor
  · intro hc hbad
    have hb : (!h.isValid c.url || h.isEmpty c.url) = true := by
      rcases hbad with hv | he
      · simp [hv]
      · simp [he]
    simp only [loadData, Compiler.record, hc, hb]
    simp
  · intro henv hbad hassert
    have hb : (!h.isValid (QUrl.mk url) || h.isEmpty (QUrl.mk url)) = true := by
      rcases hbad with hv | he
      · simp [hv]
      · simp [he]
    have hq : Q_ASSERT h (clearError s₀).d.compilation.isNone = some () := by
      unfold Q_ASSERT
      cases ha : h.assertionsEnabled
      · simp
      · simp [clearError, hassert ha]
    simp only [compile, henv, hq, loadData, Compiler.record, Compiler.setCompilation, hb]
    simp [takeCompilation, Compiler.setCompilation, clearError, errors, compilation]

/-- Witness for C9: the empty url on the sample host, for `loadData` on a held
compilation with the empty url and for `compile` on a fresh compiler. -/
theorem invalid_url_fails_silently_witness :
    (∃ s', loadData sampleHost
        (sampleCompiler.setCompilation (some { sampleCompilation with url := QUrl.mk "" }))
          = some (false, s') ∧
      s'.d = (sampleCompiler.setCompilation
        (some { sampleCompilation with url := QUrl.mk "" })).d ∧
      s'.calls = [Call.loadData]) ∧
    (∃ s', compile sampleHost "" freshCompiler = some (false, s') ∧ (errors s').1 = [] ∧
      compilation s' = none ∧ s'.calls = [Call.newQmlCompilation, Call.loadData]) :=
  ⟨(invalid_url_fails_silently sampleHost
      (sampleCompiler.setCompilation (some { sampleCompilation with url := QUrl.mk "" }))
      { sampleCompilation with url := QUrl.mk "" } "" freshCompiler).1 rfl (Or.inl rfl),
   (invalid_url_fails_silently sampleHost sampleCompiler sampleCompilation ""
      freshCompiler).2 rfl (Or.inl rfl) (fun _ => rfl)⟩

/-! ## Export -/

/-- The result of `exportData` when `checkData` fails. -/
theorem exportData_invalid (h : Host) (output : QDataStream) (s : Compiler)
    (c : QmlCompilation) (hc : s.d.compilation = some c) (hk : h.checkData c = false) :
    exportData h output s = some (false, output,
      appendError { description := "Compiled data not valid. Internal error." }
        ((s.record Call.exportData).record Call.checkData)) := by
  simp only [exportData, Compiler.record, hc, hk]
  rfl

/-- The result of `exportData` when `checkData` holds and the exporter fails. -/
theorem exportData_save_failed (h : Host) (output : QDataStream) (s : Compiler)
    (c : QmlCompilation) (hc : s.d.compilation = some c) (hk : h.checkData c = true)
    (hx : (h.exportQmc c output).1 = false) :
    exportData h output s = some (false, (h.exportQmc c output).2.2,
      appendError { description := "Error saving data" }
        ((((s.record Call.exportData).record Call.checkData).record Call.exportQmc).setCompilation
          (some (h.exportQmc c output).2.1))) := by
  simp only [exportData, Compiler.record, hc, hk, hx, Compiler.setCompilation]
  rfl

/-- The result of `exportData` when `checkData` holds and the exporter succeeds. -/
theorem exportData_saved (h : Host) (output : QDataStream) (s : Compiler)
    (c : QmlCompilation) (hc : s.d.compilation = some c) (hk : h.checkData c = true)
    (hx : (h.exportQmc c output).1 = true) :
    exportData h output s = some (true, (h.exportQmc c output).2.2,
      (((s.record Call.exportData).record Call.checkData).record Call.exportQmc).setCompilation
        (some (h.exportQmc c output).2.1)) := by
  simp only [exportData, Compiler.record, hc, hk, hx, Compiler.setCompilation]
  rfl

/-- C4: `exportData` hands off to the exporter only for valid compiled data
and returns true exactly when the export succeeded.  With a held compilation
`c`: if `checkData` is false the result is false, exactly one error "Compiled
data not valid. Internal error." is appended, the output is untouched and the
exporter is not called (the trace gains only `exportData` and `checkData`); if
`checkData` is true and `exportQmc` returns false the result is false and
exactly one error "Error saving data" is appended; if both are true the result
is true and the error list is unchanged.  Hence the result is false if and
only if the error list grew by exactly one error. -/
theorem exportData_contract (h : Host) (output : QDataStream) (s : Compiler)
    (c : QmlCompilation) (hc : s.d.compilation = some c) :
    ∃ ret output' s', exportData h output s = some (ret, output', s') ∧
      (h.checkData c = false →
        ret = false ∧ output' = output ∧
        (errors s').1 = (errors s).1 ++
          [{ description := "Compiled data not valid. Internal error." }] ∧
        s'.calls = s.calls ++ [Call.exportData, Call.checkData]) ∧
      (h.checkData c = true → (h.exportQmc c output).1 = false →
        ret = false ∧
        (errors s').1 = (errors s).1 ++ [{ description := "Error saving data" }]) ∧
      (h.checkData c = true → (h.exportQmc c output).1 = true →
        ret = true ∧ (errors s').1 = (errors s).1) ∧
      (h.checkData c = true → output' = (h.exportQmc c output).2.2) ∧
      (ret = false ↔ ∃ e, (errors s').1 = (errors s).1 ++ [e]) := by
  cases hk : h.checkData c
  · refine ⟨_, _, _, exportData_invalid h output s c hc hk, ?_⟩
    simp [appendError, errors, Compiler.record]
  · cases hx : (h.exportQmc c output).1
    · refine ⟨_, _, _, exportData_save_failed h output s c hc hk hx, ?_⟩
      simp [appendError, errors, Compiler.record, Compiler.setCompilation]
    · refine ⟨_, _, _, exportData_saved h output s c hc hk hx, ?_⟩
      simp [errors, Compiler.record, Compiler.setCompilation]

/-- Witness for C4: the sample host exports the sample compilation. -/
theorem exportData_contract_witness :
    ∃ ret output' s', exportData sampleHost [7] sampleCompiler = some (ret, output', s') ∧
      (sampleHost.checkData sampleCompilation = false →
        ret = false ∧ output' = [7] ∧
        (errors s').1 = (errors sampleCompiler).1 ++
          [{ description := "Compiled data not valid. Internal error." }] ∧
        s'.calls = sampleCompiler.calls ++ [Call.exportData, Call.checkData]) ∧
      (sampleHost.checkData sampleCompilation = true →
        (sampleHost.exportQmc sampleCompilation [7]).1 = false →
        ret = false ∧
        (errors s').1 = (errors sampleCompiler).1 ++ [{ description := "Error saving data" }]) ∧
      (sampleHost.checkData sampleCompilation = true →
        (sampleHost.exportQmc sampleCompilation [7]).1 = true →
        ret = true ∧ (errors s').1 = (errors sampleCompiler).1) ∧
      (sampleHost.checkData sampleCompilation = true →
        output' = (sampleHost.exportQmc sampleCompilation [7]).2.2) ∧
      (ret = false ↔ ∃ e, (errors s').1 = (errors sampleCompiler).1 ++ [e]) :=
  exportData_contract sampleHost [7] sampleCompiler sampleCompilation rfl

/-! ## Imports -/

/-- The result of `addImport` in the catch-all branch (lines 218-223) when its
assertion lets the call through. -/
theorem addImport_else (h : Host) (imp : Import) (errs : List QQmlError) (s : Compiler)
    (uri q : String)
    (huri : stringAt s (toInt imp.uriIndex) = some uri)
    (hq : stringAt s (toInt imp.qualifierIndex) = some q)
    (hs : imp.type ≠ ImportType.ImportScript) (hl : imp.type ≠ ImportType.ImportLibrary)
    (ha : h.assertionsEnabled = true → imp.type = ImportType.ImportFile) :
    addImport h imp errs s = some (false, errs, s) := by
  have hQ : Q_ASSERT h (decide (imp.type = ImportType.ImportFile)) = some () := by
    unfold Q_ASSERT
    cases hE : h.assertionsEnabled
    · simp
    · simp [ha hE]
  simp only [addImport, huri, hq, hs, hl, hQ, if_false]

/-- In a build with assertions the catch-all branch aborts on a type that is
none of the three enumerators. -/
theorem addImport_else_aborts (h : Host) (imp : Import) (errs : List QQmlError)
    (s : Compiler) (uri q : String)
    (huri : stringAt s (toInt imp.uriIndex) = some uri)
    (hq : stringAt s (toInt imp.qualifierIndex) = some q)
    (hs : imp.type ≠ ImportType.ImportScript) (hl : imp.type ≠ ImportType.ImportLibrary)
    (hf : imp.type ≠ ImportType.ImportFile) (ha : h.assertionsEnabled = true) :
    addImport h imp errs s = none := by
  have hQ : Q_ASSERT h (decide (imp.type = ImportType.ImportFile)) = none := by
    simp [Q_ASSERT, ha, hf]
  simp only [addImport, huri, hq, hs, hl, hQ, if_false]

/-- The result of `addImport` on a file import. -/
theorem addImport_file (h : Host) (imp : Import) (errs : List QQmlError) (s : Compiler)
    (uri q : String)
    (huri : stringAt s (toInt imp.uriIndex) = some uri)
    (hq : stringAt s (toInt imp.qualifierIndex) = some q)
    (ht : imp.type = ImportType.ImportFile) :
    addImport h imp errs s = some (false, errs, s) :=
  addImport_else h imp errs s uri q huri hq (by rw [ht]; decide) (by rw [ht]; decide)
    (fun _ => ht)

/-- With a held compilation `loadData` returns, keeps a compilation in the
slot, and records its own entry and at most one file load. -/
theorem loadData_returns (h : Host) (s : Compiler) (c : QmlCompilation)
    (hc : s.d.compilation = some c) :
    ∃ r s', loadData h s = some (r, s') ∧ s'.d.compilation ≠ none ∧
      (r = false → s'.d.compilation = some c) ∧
      (s'.calls = s.calls ++ [Call.loadData] ∨
        s'.calls = s.calls ++ [Call.loadData, Call.fileLoad]) := by
  simp only [loadData, Compiler.record, hc]
  by_cases hb : (!h.isValid c.url || h.isEmpty c.url) = true
  · simp [hb, hc]
  · by_cases hr : (h.load c.engine c.url).isReady = true
    · simp [hb, hr, Compiler.setCompilation]
    · by_cases he : (h.load c.engine c.url).isError = true
      · simp [hb, hr, he, appendError, hc]
      · simp [hb, hr, he, hc]

/-- The forced-interpreter exit of `compile`. -/
theorem compile_forced (h : Host) (url : String) (s : Compiler)
    (henv : (h.qgetenv "QV4_FORCE_INTERPRETER").isEmpty = false) :
    compile h url s = some (false,
      appendError { description := "Compiler is forced to use interpreter" } (clearError s)) := by
  simp [compile, henv]

/-- Past the environment check and the assertion, `compile` is `loadData`
followed by `compileData` on the prepared object. -/
theorem compile_unforced (h : Host) (url : String) (s : Compiler)
    (henv : (h.qgetenv "QV4_FORCE_INTERPRETER").isEmpty = true)
    (hq : Q_ASSERT h s.d.compilation.isNone = some ()) :
    compile h url s =
      match loadData h (compileLoadState h url s) with
      | none => none
      | some (false, s) => some (false, (takeCompilation s).2)
      | some (true, s) =>
        match compileData h s with
        | (false, s) => some (false, (takeCompilation s).2)
        | (true, s) => some (true, s) := by
  have hq' : Q_ASSERT h (clearError s).d.compilation.isNone = some () := hq
  simp only [compile, henv, hq']
  rfl

/-- When the assertion of `compile` fails, the call does not return. -/
theorem compile_assert_fails (h : Host) (url : String) (s : Compiler)
    (henv : (h.qgetenv "QV4_FORCE_INTERPRETER").isEmpty = true)
    (hq : Q_ASSERT h s.d.compilation.isNone = none) :
    compile h url s = none := by
  have hq' : Q_ASSERT h (clearError s).d.compilation.isNone = none := hq
  simp only [compile, henv, hq']
  rfl

/-- Past the environment check and the assertion `compile` returns; a false
result leaves the slot null, a true result is a true result of `compileData`
on a non-null slot, and the trace gains only entries of `compileCalls`. -/
theorem compile_unforced_summary (h : Host) (url : String) (s : Compiler)
    (henv : (h.qgetenv "QV4_FORCE_INTERPRETER").isEmpty = true)
    (hq : Q_ASSERT h s.d.compilation.isNone = some ()) :
    ∃ r s₁, compile h url s = some (r, s₁) ∧
      (∃ l, s₁.calls = s.calls ++ l ∧ ∀ c ∈ l, c ∈ compileCalls) ∧
      (r = false → s₁.d.compilation = none) ∧
      (r = true → ∃ d₀, d₀.compilation ≠ none ∧ h.compileData d₀ = (true, s₁.d)) := by
  rw [compile_unforced h url s henv hq]
  obtain ⟨r, s', hld, hne, -, htr⟩ := loadData_returns h (compileLoadState h url s) _ rfl
  have hcalls : (compileLoadState h url s).calls = s.calls ++ [Call.newQmlCompilation] := rfl
  rw [hld]
  cases r
  · refine ⟨false, (takeCompilation s').2, rfl, ?_, fun _ => rfl, fun hf => by cases hf⟩
    rcases htr with htr | htr
    · exact ⟨[Call.newQmlCompilation, Call.loadData],
        by simp [takeCompilation, Compiler.setCompilation, htr, hcalls],
        by simp [compileCalls]⟩
    · exact ⟨[Call.newQmlCompilation, Call.loadData, Call.fileLoad],
        by simp [takeCompilation, Compiler.setCompilation, htr, hcalls],
        by simp [compileCalls]⟩
  · have htr' : ∃ l, s'.calls ++ [Call.compileData] = s.calls ++ l ∧ ∀ c ∈ l, c ∈ compileCalls := by
      rcases htr with htr | htr
      · exact ⟨[Call.newQmlCompilation, Call.loadData, Call.compileData],
          by simp [htr, hcalls], by simp [compileCalls]⟩
      · exact ⟨[Call.newQmlCompilation, Call.loadData, Call.fileLoad, Call.compileData],
          by simp [htr, hcalls], by simp [compileCalls]⟩
    cases hcd : (h.compileData s'.d).1
    · refine ⟨false, (takeCompilation
        { s'.record Call.compileData with d := (h.compileData s'.d).2 }).2, ?_, ?_,
        fun _ => rfl, fun hf => by cases hf⟩
      · simp [compileData, Compiler.record, hcd]
      · simpa [takeCompilation, Compiler.setCompilation, Compiler.record] using htr'
    · refine ⟨true, { s'.record Call.compileData with d := (h.compileData s'.d).2 }, ?_, ?_,
        fun hf => (by cases hf), fun _ => ⟨s'.d, hne, ?_⟩⟩
      · simp [compileData, Compiler.record, hcd]
      · simpa [Compiler.record] using htr'
      · exact Prod.ext hcd rfl

/-- Whenever `compile` returns, the trace has gained only entries of
`compileCalls`. -/
theorem compile_trace (h : Host) (url : String) (s : Compiler) (r : Bool) (s₁ : Compiler)
    (hC : compile h url s = some (r, s₁)) :
    ∃ l, s₁.calls = s.calls ++ l ∧ ∀ c ∈ l, c ∈ compileCalls := by
  cases henv : (h.qgetenv "QV4_FORCE_INTERPRETER").isEmpty
  · rw [compile_forced h url s henv] at hC
    simp only [Option.some.injEq, Prod.mk.injEq] at hC
    refine ⟨[], ?_, by simp⟩
    rw [← hC.2]
    simp [appendError, clearError]
  · cases hq : Q_ASSERT h s.d.compilation.isNone
    · rw [compile_assert_fails h url s henv hq] at hC
      cases hC
    · obtain ⟨r', s', hC', htr, -⟩ := compile_unforced_summary h url s henv hq
      rw [hC] at hC'
      simp only [Option.some.injEq, Prod.mk.injEq] at hC'
      rw [hC'.2]
      exact htr

/-- A true result of `compile` is a true result of `compileData` on an object
with a compilation in the slot. -/
theorem compile_true_held (h : Host) (url : String) (s s₁ : Compiler)
    (hC : compile h url s = some (true, s₁)) :
    ∃ d₀, d₀.compilation ≠ none ∧ h.compileData d₀ = (true, s₁.d) := by
  cases henv : (h.qgetenv "QV4_FORCE_INTERPRETER").isEmpty
  · rw [compile_forced h url s henv] at hC
    simp at hC
  · cases hq : Q_ASSERT h s.d.compilation.isNone
    · rw [compile_assert_fails h url s henv hq] at hC
      cases hC
    · obtain ⟨r', s', hC', -, -, ht⟩ := compile_unforced_summary h url s henv hq
      rw [hC] at hC'
      simp only [Option.some.injEq, Prod.mk.injEq] at hC'
      rw [hC'.2]
      exact ht hC'.1.symm

/-- Where its assertion holds, `compile` returns. -/
theorem compile_returns (h : Host) (url : String) (s : Compiler)
    (hassert : h.assertionsEnabled = true →
      (h.qgetenv "QV4_FORCE_INTERPRETER").isEmpty = true → s.d.compilation = none) :
    ∃ r s₁, compile h url s = some (r, s₁) := by
  cases henv : (h.qgetenv "QV4_FORCE_INTERPRETER").isEmpty
  · exact ⟨_, _, compile_forced h url s henv⟩
  · have hq : Q_ASSERT h s.d.compilation.isNone = some () := by
      unfold Q_ASSERT
      cases ha : h.assertionsEnabled
      · simp
      · simp [hassert ha henv]
    obtain ⟨r, s₁, hC, -⟩ := compile_unforced_summary h url s henv hq
    exact ⟨r, s₁, hC⟩

/-- Whenever `exportData` returns, it ran on a held compilation and either
stopped after `checkData` with a false result and the output untouched, or
went on to the exporter. -/
theorem exportData_calls (h : Host) (output : QDataStream) (s : Compiler) (r : Bool)
    (o : QDataStream) (s₃ : Compiler) (hE : exportData h output s = some (r, o, s₃)) :
    (r = false ∧ o = output ∧ s₃.calls = s.calls ++ [Call.exportData, Call.checkData]) ∨
    s₃.calls = s.calls ++ [Call.exportData, Call.checkData, Call.exportQmc] := by
  cases hc : s.d.compilation with
  | none => simp [exportData, Compiler.record, hc] at hE
  | some c =>
    cases hk : h.checkData c
    · rw [exportData_invalid h output s c hc hk] at hE
      simp only [Option.some.injEq, Prod.mk.injEq] at hE
      left
      refine ⟨hE.1.symm, hE.2.1.symm, ?_⟩
      rw [← hE.2.2]
      simp [appendError, Compiler.record]
    · right
      cases hx : (h.exportQmc c output).1
      · rw [exportData_save_failed h output s c hc hk hx] at hE
        simp only [Option.some.injEq, Prod.mk.injEq] at hE
        rw [← hE.2.2]
        simp [appendError, Compiler.record, Compiler.setCompilation]
      · rw [exportData_saved h output s c hc hk hx] at hE
        simp only [Option.some.injEq, Prod.mk.injEq] at hE
        rw [← hE.2.2]
        simp [Compiler.record, Compiler.setCompilation]

/-- With a held compilation `exportData` returns. -/
theorem exportData_returns (h : Host) (output : QDataStream) (s : Compiler)
    (hc : s.d.compilation ≠ none) :
    ∃ r o s₃, exportData h output s = some (r, o, s₃) := by
  cases hc' : s.d.compilation with
  | none => exact absurd hc' hc
  | some c =>
    cases hk : h.checkData c
    · exact ⟨_, _, _, exportData_invalid h output s c hc' hk⟩
    · cases hx : (h.exportQmc c output).1
      · exact ⟨_, _, _, exportData_save_failed h output s c hc' hk hx⟩
      · exact ⟨_, _, _, exportData_saved h output s c hc' hk hx⟩

/-- The three ways in which `compile(url, output)` returns. -/
theorem compileOutput_cases (h : Host) (url : String) (output : QDataStream) (s : Compiler)
    (ret : Bool) (out' : QDataStream) (s' : Compiler)
    (hO : compileOutput h url output s = some (ret, out', s')) :
    (∃ s₁, compile h url s = some (false, s₁) ∧ ret = false ∧ out' = output ∧
      s' = (takeCompilation s₁).2) ∨
    (∃ s₁ s₂, compile h url s = some (true, s₁) ∧
      createExportStructures h s₁ = (false, s₂) ∧ ret = false ∧ out' = output ∧
      s' = (takeCompilation s₂).2) ∨
    (∃ s₁ s₂ s₃, compile h url s = some (true, s₁) ∧
      createExportStructures h s₁ = (true, s₂) ∧
      exportData h output s₂ = some (ret, out', s₃) ∧ s' = (takeCompilation s₃).2) := by
  unfold compileOutput at hO
  rcases hC : compile h url s with _ | ⟨r, s₁⟩
  · rw [hC] at hO
    cases hO
  · rw [hC] at hO
    cases r
    · simp only [Option.some.injEq, Prod.mk.injEq] at hO
      exact Or.inl ⟨s₁, rfl, hO.1.symm, hO.2.1.symm, hO.2.2.symm⟩
    · rcases hS : createExportStructures h s₁ with ⟨b, s₂⟩
      simp only [hS] at hO
      cases b
      · simp only [Option.some.injEq, Prod.mk.injEq] at hO
        exact Or.inr (Or.inl ⟨s₁, s₂, rfl, hS, hO.1.symm, hO.2.1.symm, hO.2.2.symm⟩)
      · rcases hE : exportData h output s₂ with _ | ⟨r₃, o₃, s₃⟩
        · simp [hE] at hO
        · simp only [hE, Option.some.injEq, Prod.mk.injEq] at hO
          refine Or.inr (Or.inr ⟨s₁, s₂, s₃, rfl, hS, ?_, hO.2.2.symm⟩)
          rw [← hO.1, ← hO.2.1]
          exact hE

/-- Where the assertion of `compile` holds and a successful stage leaves a
compilation in the slot, `compile(url, output)` returns. -/
theorem compileOutput_returns (h : Host) (url : String) (output : QDataStream) (s : Compiler)
    (hassert : h.assertionsEnabled = true →
      (h.qgetenv "QV4_FORCE_INTERPRETER").isEmpty = true → s.d.compilation = none)
    (hcd : ∀ d, d.compilation ≠ none → (h.compileData d).1 = true →
      (h.compileData d).2.compilation ≠ none)
    (hces : ∀ d, d.compilation ≠ none → (h.createExportStructures d).1 = true →
      (h.createExportStructures d).2.compilation ≠ none) :
    ∃ ret out' s', compileOutput h url output s = some (ret, out', s') := by
  obtain ⟨r, s₁, hC⟩ := compile_returns h url s hassert
  unfold compileOutput
  rw [hC]
  cases r
  · exact ⟨false, output, (takeCompilation s₁).2, rfl⟩
  · obtain ⟨d₀, hd₀, hcd₀⟩ := compile_true_held h url s s₁ hC
    have h₁ : s₁.d.compilation ≠ none := by
      have := hcd d₀ hd₀ (by rw [hcd₀])
      rwa [hcd₀] at this
    rcases hS : createExportStructures h s₁ with ⟨b, s₂⟩
    cases b
    · exact ⟨false, output, (takeCompilation s₂).2, by simp only [hS]⟩
    · have hS1 : (h.createExportStructures s₁.d).1 = true := congrArg Prod.fst hS
      have hS2 : s₂.d = (h.createExportStructures s₁.d).2 :=
        (congrArg (fun p => p.2.d) hS).symm
      have h₂ : s₂.d.compilation ≠ none := by
        rw [hS2]
        exact hces s₁.d h₁ hS1
      obtain ⟨r₃, o₃, s₃, hE⟩ := exportData_returns h output s₂ h₂
      exact ⟨r₃, o₃, (takeCompilation s₃).2, by simp only [hS, hE]⟩

/-- No entry of `compileCalls` belongs to the export stages. -/
theorem compileCalls_not_export (l : List Call) (hl : ∀ c ∈ l, c ∈ compileCalls) :
    Call.createExportStructures ∉ l ∧ Call.exportData ∉ l ∧ Call.exportQmc ∉ l := by
  refine ⟨fun hm => ?_, fun hm => ?_, fun hm => ?_⟩ <;>
    · have := hl _ hm
      simp [compileCalls] at this

/-- C1: `compile(url, output)` returns true if and only if `compile(url)`,
`createExportStructures` and `exportData(output)` all return true, run in that
order with short-circuiting.  Where the assertion of `compile` holds and a
successful stage leaves a compilation in the slot, the call returns.  Whenever
it returns: the result is true exactly when the three stages, each run on the
object the previous one left, return true; if `compile(url)` returned false the
output is untouched and the trace has no entry of `createExportStructures`,
`exportData` or `exportQmc`; if `createExportStructures` returned false the
output is untouched and the trace ends with `createExportStructures`, with no
entry of `exportData` or `exportQmc`; and a true result has the trace of
`compile(url)` followed by `createExportStructures`, `exportData`, `checkData`,
`exportQmc`. -/
theorem compileOutput_short_circuit (h : Host) (url : String) (output : QDataStream)
    (s : Compiler) :
    ((h.assertionsEnabled = true →
        (h.qgetenv "QV4_FORCE_INTERPRETER").isEmpty = true → s.d.compilation = none) →
      (∀ d, d.compilation ≠ none → (h.compileData d).1 = true →
        (h.compileData d).2.compilation ≠ none) →
      (∀ d, d.compilation ≠ none → (h.createExportStructures d).1 = true →
        (h.createExportStructures d).2.compilation ≠ none) →
      ∃ ret out' s', compileOutput h url output s = some (ret, out', s')) ∧
    (∀ ret out' s', compileOutput h url output s = some (ret, out', s') →
      (ret = true ↔ ∃ s₁ s₂ o₃ s₃, compile h url s = some (true, s₁) ∧
        createExportStructures h s₁ = (true, s₂) ∧
        exportData h output s₂ = some (true, o₃, s₃)) ∧
      ((∃ s₁, compile h url s = some (false, s₁)) →
        ret = false ∧ out' = output ∧
        ∃ l, s'.calls = s.calls ++ l ∧ Call.createExportStructures ∉ l ∧
          Call.exportData ∉ l ∧ Call.exportQmc ∉ l) ∧
      ((∃ s₁ s₂, compile h url s = some (true, s₁) ∧
          createExportStructures h s₁ = (false, s₂)) →
        ret = false ∧ out' = output ∧
        ∃ l, s'.calls = s.calls ++ l ++ [Call.createExportStructures] ∧
          Call.createExportStructures ∉ l ∧ Call.exportData ∉ l ∧ Call.exportQmc ∉ l) ∧
      (ret = true →
        ∃ l, s'.calls = s.calls ++ l ++ [Call.createExportStructures, Call.exportData,
            Call.checkData, Call.exportQmc] ∧
          Call.createExportStructures ∉ l ∧ Call.exportData ∉ l ∧ Call.exportQmc ∉ l)) := by
  refine ⟨compileOutput_returns h url output s, ?_⟩
  intro ret out' s' hO
  rcases compileOutput_cases h url output s ret out' s' hO with
    ⟨s₁, hC, hr, ho, hs⟩ | ⟨s₁, s₂, hC, hS, hr, ho, hs⟩ | ⟨s₁, s₂, s₃, hC, hS, hE, hs⟩
  · obtain ⟨l, hl, hmem⟩ := compile_trace h url s false s₁ hC
    refine ⟨?_, ?_, ?_, ?_⟩
    · rw [hr, hC]
      simp
    · intro _
      exact ⟨hr, ho, l, by rw [hs]; exact hl, compileCalls_not_export l hmem⟩
    · rintro ⟨t₁, t₂, hC', -⟩
      rw [hC] at hC'
      simp at hC'
    · intro ht
      rw [hr] at ht
      cases ht
  · obtain ⟨l, hl, hmem⟩ := compile_trace h url s true s₁ hC
    have hs₂ : s₂.calls = s₁.calls ++ [Call.createExportStructures] :=
      (congrArg (fun p => p.2.calls) hS).symm
    refine ⟨?_, ?_, ?_, ?_⟩
    · rw [hr, hC]
      simp only [Option.some.injEq, Prod.mk.injEq, true_and, false_iff, Bool.false_eq_true,
        not_exists]
      rintro t₁ t₂ o₃ t₃ ⟨rfl, hS', -⟩
      rw [hS] at hS'
      simp at hS'
    · rintro ⟨t₁, hC'⟩
      rw [hC] at hC'
      simp at hC'
    · intro _
      refine ⟨hr, ho, l, ?_, compileCalls_not_export l hmem⟩
      rw [hs]
      show s₂.calls = _
      rw [hs₂, hl]
    · intro ht
      rw [hr] at ht
      cases ht
  · obtain ⟨l, hl, hmem⟩ := compile_trace h url s true s₁ hC
    have hs₂ : s₂.calls = s₁.calls ++ [Call.createExportStructures] :=
      (congrArg (fun p => p.2.calls) hS).symm
    refine ⟨?_, ?_, ?_, ?_⟩
    · constructor
      · intro ht
        rw [ht] at hE
        exact ⟨s₁, s₂, out', s₃, hC, hS, hE⟩
      · rintro ⟨t₁, t₂, o₃, t₃, hC', hS', hE'⟩
        rw [hC] at hC'
        simp only [Option.some.injEq, Prod.mk.injEq, true_and] at hC'
        subst hC'
        rw [hS] at hS'
        simp only [Prod.mk.injEq, true_and] at hS'
        subst hS'
        rw [hE] at hE'
        simp only [Option.some.injEq, Prod.mk.injEq] at hE'
        exact hE'.1
    · rintro ⟨t₁, hC'⟩
      rw [hC] at hC'
      simp at hC'
    · rintro ⟨t₁, t₂, hC', hS'⟩
      rw [hC] at hC'
      simp only [Option.some.injEq, Prod.mk.injEq, true_and] at hC'
      subst hC'
      rw [hS] at hS'
      simp at hS'
    · intro ht
      refine ⟨l, ?_, compileCalls_not_export l hmem⟩
      rcases exportData_calls h output s₂ ret out' s₃ hE with ⟨hf, -, -⟩ | hcalls
      · rw [hf] at ht
        cases ht
      · rw [hs]
        show s₃.calls = _
        rw [hcalls, hs₂, hl]
        simp

/-- Witness for C1: on the sample host a fresh compiler compiles "a.qml" and
exports one byte, with the four stages' entries in order at the end of the
trace; and with a failing `createExportStructures` nothing is written. -/
theorem compileOutput_short_circuit_witness :
    (∃ ret out' s', compileOutput sampleHost "a.qml" [] freshCompiler = some (ret, out', s')) ∧
    (∃ s', compileOutput sampleHost "a.qml" [] freshCompiler = some (true, [1], s') ∧
      ∃ l, s'.calls = freshCompiler.calls ++ l ++ [Call.createExportStructures,
          Call.exportData, Call.checkData, Call.exportQmc] ∧
        Call.createExportStructures ∉ l ∧ Call.exportData ∉ l ∧ Call.exportQmc ∉ l) ∧
    (∃ s', compileOutput { sampleHost with createExportStructures := fun d => (false, d) }
        "a.qml" [] freshCompiler = some (false, [], s') ∧
      ∃ l, s'.calls = freshCompiler.calls ++ l ++ [Call.createExportStructures] ∧
        Call.createExportStructures ∉ l ∧ Call.exportData ∉ l ∧ Call.exportQmc ∉ l) :=
  ⟨(compileOutput_short_circuit sampleHost "a.qml" [] freshCompiler).1
      (fun _ _ => rfl) (fun _ hd _ => hd) (fun _ hd _ => hd),
   ⟨_, rfl, ((compileOutput_short_circuit sampleHost "a.qml" [] freshCompiler).2
      true [1] _ rfl).2.2.2 rfl⟩,
   ⟨_, rfl, (((compileOutput_short_circuit
      { sampleHost with createExportStructures := fun d => (false, d) } "a.qml" []
      freshCompiler).2 false [] _ rfl).2.2.1 ⟨_, _, rfl, rfl⟩).2.2⟩⟩

/-- C8: the compiler never keeps a compilation after a failed or exported
compile.  Whenever `compile(url, output)` returns, with either result, the slot
is null and a following `takeCompilation` returns null; and the call does
return where the assertion of `compile` holds and a successful stage leaves a
compilation in the slot.  When `compile(url)` starts with a null slot and
`compileData` neither fills an empty slot nor empties a filled one, it returns,
and the slot is non-null on return if and only if the result is true.
`takeCompilation` returns the held compilation, nulls the slot and leaves the
error list unchanged, so a second call returns null. -/
theorem compilation_never_kept (h : Host) (url : String) (output : QDataStream)
    (s : Compiler) :
    (∀ ret out' s', compileOutput h url output s = some (ret, out', s') →
      compilation s' = none ∧ (takeCompilation s').1 = none) ∧
    ((h.assertionsEnabled = true →
        (h.qgetenv "QV4_FORCE_INTERPRETER").isEmpty = true → s.d.compilation = none) →
      (∀ d, d.compilation ≠ none → (h.compileData d).1 = true →
        (h.compileData d).2.compilation ≠ none) →
      (∀ d, d.compilation ≠ none → (h.createExportStructures d).1 = true →
        (h.createExportStructures d).2.compilation ≠ none) →
      ∃ ret out' s', compileOutput h url output s = some (ret, out', s')) ∧
    (s.d.compilation = none →
      (∀ d, (h.compileData d).2.compilation = none ↔ d.compilation = none) →
      ∃ r s₁, compile h url s = some (r, s₁) ∧ (compilation s₁ ≠ none ↔ r = true)) ∧
    ((takeCompilation s).1 = compilation s ∧
      compilation (takeCompilation s).2 = none ∧
      (errors (takeCompilation s).2).1 = (errors s).1 ∧
      (takeCompilation (takeCompilation s).2).1 = none) := by
  refine ⟨?_, compileOutput_returns h url output s, ?_, rfl, rfl, rfl, rfl⟩
  · intro ret out' s' hO
    rcases compileOutput_cases h url output s ret out' s' hO with
      ⟨s₁, -, -, -, hs⟩ | ⟨s₁, s₂, -, -, -, -, hs⟩ | ⟨s₁, s₂, s₃, -, -, -, hs⟩ <;>
    · rw [hs]
      exact ⟨rfl, rfl⟩
  · intro hnone hcd
    cases henv : (h.qgetenv "QV4_FORCE_INTERPRETER").isEmpty
    · refine ⟨_, _, compile_forced h url s henv, ?_⟩
      simp [compilation, appendError, clearError, hnone]
    · have hq : Q_ASSERT h s.d.compilation.isNone = some () := by
        simp [Q_ASSERT, hnone]
      obtain ⟨r, s₁, hC, -, hf, ht⟩ := compile_unforced_summary h url s henv hq
      refine ⟨r, s₁, hC, ?_⟩
      cases r
      · simp [compilation, hf rfl]
      · obtain ⟨d₀, hd₀, hcd₀⟩ := ht rfl
        have := (hcd d₀).not.mpr hd₀
        rw [hcd₀] at this
        simpa [compilation] using this

/-- Witness for C8: a fresh compiler on the sample host, for the exporting
compile and for `compile(url)`. -/
theorem compilation_never_kept_witness :
    (∃ s', compileOutput sampleHost "a.qml" [] freshCompiler = some (true, [1], s') ∧
      compilation s' = none ∧ (takeCompilation s').1 = none) ∧
    (∃ ret out' s', compileOutput sampleHost "a.qml" [] freshCompiler = some (ret, out', s')) ∧
    (∃ r s₁, compile sampleHost "a.qml" freshCompiler = some (r, s₁) ∧
      (compilation s₁ ≠ none ↔ r = true)) :=
  ⟨⟨_, rfl, (compilation_never_kept sampleHost "a.qml" [] freshCompiler).1 true [1] _ rfl⟩,
   (compilation_never_kept sampleHost "a.qml" [] freshCompiler).2.1
      (fun _ _ => rfl) (fun _ hd _ => hd) (fun _ hd _ => hd),
   (compilation_never_kept sampleHost "a.qml" [] freshCompiler).2.2.1 rfl
      (fun _ => Iff.rfl)⟩

end Qmlc
